import Mathlib

/-!
Verification development for the slack-birthday-notifier program
(src/main.rs). The Rust source is shallowly embedded: configuration
structures, the date-key renderer `get_date_str`, the record-partitioning
loop of `match_dates`, the message formatter `slack_format`, and the
side-effecting part of `main` (console printing and the gated HTTP send)
as an explicit effect trace. File and HTTP transports themselves are
boundaries of the model: the CSV iterator is a list of `Except` values
(`Except.error` standing for a row that fails to deserialize, on which the
Rust code panics via `.expect`), and an HTTP POST is an `Effect.httpSend`
trace entry.
-/

/-- DateFormat from src/main.rs: the two accepted date-key layouts. -/
inductive DateFormat where
  | MonthDay
  | DayMonth
deriving DecidableEq

/-- CSV section of the configuration (src/main.rs, struct CSV). The
`path` field is file-system input and is outside the model; the two
fields that drive date-key rendering are kept. -/
structure CSV where
  date_separator : Char
  date_format : DateFormat
deriving DecidableEq

/-- Slack section of the configuration (src/main.rs, struct Slack). -/
structure Slack where
  enabled : Bool
  channel_id : Option String
  webhook_url : Option String
deriving DecidableEq

/-- Warning section of the configuration (src/main.rs, struct Warning).
The Rust field is a u8 (0 to 255); it is modelled as Nat, and no claim
depends on the upper bound. -/
structure Warning where
  enabled : Bool
  channel_id : Option String
  webhook_url : Option String
  number_of_days_warning : Nat
deriving DecidableEq

/-- Top-level configuration (src/main.rs, struct Config). -/
structure Config where
  warning : Warning
  csv : CSV
  slack : Slack

/-- BirthdayRow from src/main.rs: one CSV record, a raw date string and a
mention tag. -/
structure BirthdayRow where
  date : String
  tag : String
deriving DecidableEq

/-- Date models the UTC calendar date carried by a chrono
DateTime of Utc, with proleptic-Gregorian year restricted to Nat (no claim
involves dates before year 0). Only `month` and `day` are read by the
date-key renderer; `year` participates in the day-addition arithmetic. -/
structure Date where
  year : Nat
  month : Nat
  day : Nat
deriving DecidableEq

/-- Gregorian leap-year rule, as provided by chrono for UTC dates. -/
def isLeapYear (y : Nat) : Bool :=
  (y % 4 == 0 && y % 100 != 0) || y % 400 == 0

/-- Number of days in a month of a given year, as provided by chrono. -/
def daysInMonth (y m : Nat) : Nat :=
  if m == 2 then (if isLeapYear y then 29 else 28)
  else if m == 4 || m == 6 || m == 9 || m == 11 then 30
  else 31

/-- Successor calendar day, rolling over month and year boundaries. -/
def nextDay (d : Date) : Date :=
  if d.day < daysInMonth d.year d.month then ⟨d.year, d.month, d.day + 1⟩
  else if d.month < 12 then ⟨d.year, d.month + 1, 1⟩
  else ⟨d.year + 1, 1, 1⟩

/-- Day addition on calendar dates; models `cur_epoch_time +
Duration::days(n)` from src/main.rs line 75 (the u8 cast makes the added
count non-negative, so Nat iteration of the successor day is faithful). -/
def addDays (d : Date) : Nat → Date
  | 0 => d
  | n + 1 => nextDay (addDays d n)

/-- Rust format specifier {:0>2}: render a Nat in decimal and left-pad
with the character 0 to a minimum width of 2. -/
def fmtPad2 (n : Nat) : String :=
  let s := toString n
  if s.length < 2 then String.mk (List.replicate (2 - s.length) '0') ++ s else s

/-- get_date_str from src/main.rs lines 57 to 66: render the month and day
of a date as a zero-padded key, in the order chosen by the configured
date format, joined by the configured separator character. -/
def get_date_str (epoch_time : Date) (cfg : CSV) : String :=
  let month := epoch_time.month
  let day := epoch_time.day
  if cfg.date_format == DateFormat.MonthDay then
    fmtPad2 month ++ String.singleton cfg.date_separator ++ fmtPad2 day
  else
    fmtPad2 day ++ String.singleton cfg.date_separator ++ fmtPad2 month

/-- Loop body of match_dates (src/main.rs lines 80 to 87). Each iterator
item either fails to deserialize (`Except.error`, on which the Rust code
panics via `.expect`, modelled as `none`) or yields a record that is pushed
onto the end of the matching accumulator: the today vector if its date
equals the today key, else the upcoming vector if it equals the warning
key, else it is dropped. -/
def match_dates_loop (current_date warning_date : String) :
    List (Except String BirthdayRow) → List BirthdayRow → List BirthdayRow →
      Option (List BirthdayRow × List BirthdayRow)
  | [], current_birthdays, upcoming_birthdays => some (current_birthdays, upcoming_birthdays)
  | Except.error _ :: _, _, _ => none
  | Except.ok record :: rest, current_birthdays, upcoming_birthdays =>
    if record.date == current_date then
      match_dates_loop current_date warning_date rest (current_birthdays ++ [record])
        upcoming_birthdays
    else if record.date == warning_date then
      match_dates_loop current_date warning_date rest current_birthdays
        (upcoming_birthdays ++ [record])
    else
      match_dates_loop current_date warning_date rest current_birthdays upcoming_birthdays

/-- match_dates from src/main.rs lines 68 to 90. In Rust the current
instant comes from `Utc::now()` inside the function; the embedding passes
that ambient input explicitly as `cur_epoch_time`. -/
def match_dates (iter : List (Except String BirthdayRow)) (warning_days : Nat) (cfg : CSV)
    (cur_epoch_time : Date) : Option (List BirthdayRow × List BirthdayRow) :=
  let current_date := get_date_str cur_epoch_time cfg
  let warning_date := get_date_str (addDays cur_epoch_time warning_days) cfg
  match_dates_loop current_date warning_date iter [] []

/-- Rust `Vec::join`: concatenate the strings with the separator between
consecutive elements, no separator for a singleton, empty for an empty
vector. -/
def rustJoin (sep : String) : List String → String
  | [] => ""
  | [s] => s
  | s :: rest => s ++ sep ++ rustJoin sep rest

/-- slack_format from src/main.rs lines 92 to 101:
format!("{}<@{}>", birthday_message, tags.join(">, <@")). -/
def slack_format (tags : List BirthdayRow) (birthday_message : String) : String :=
  birthday_message ++ "<@" ++ rustJoin ">, <@" (tags.map (fun b => b.tag)) ++ ">"

/-- Observable side effects of the program: a console line or an HTTP POST
of a message to a webhook with a channel id (slack_send, src/main.rs
lines 103 to 111). -/
inductive Effect where
  | println (message : String)
  | httpSend (message : String) (webhook_url : String) (channel_id : String)
deriving DecidableEq

/-- Pluralized message chosen in main (src/main.rs lines 122 to 128)
from the length of the today group. -/
def today_message (len : Nat) : String :=
  if len == 1 then "Happy birthday"
  else if len == 2 then "Happy birthday to you both!"
  else "Happy birthday to you all!"

/-- Per-group block of main (src/main.rs lines 121 to 137 for the today
group and 139 to 155 for the upcoming group, which have identical shape):
when the group is non-empty, format the message, print it, and send it
over HTTP only when the group's enabled flag is set and both the webhook
URL and the channel id are present. -/
def processGroup (group : List BirthdayRow) (birthday_message : String) (enabled : Bool)
    (webhook_url channel_id : Option String) : List Effect :=
  if group.isEmpty then []
  else
    let message := slack_format group birthday_message
    Effect.println message ::
      (if enabled then
        match webhook_url, channel_id with
        | some url, some id => [Effect.httpSend message url id]
        | _, _ => []
      else [])

/-- Effect trace of main (src/main.rs lines 113 to 156) after the config
and the CSV reader are opened: partition the rows, then run the today
block and the upcoming block in order; `none` when a row fails to
deserialize (the whole run panics with no output). -/
def main_run (cfg : Config) (iter : List (Except String BirthdayRow)) (now : Date) :
    Option (List Effect) :=
  (match_dates iter cfg.warning.number_of_days_warning cfg.csv now).map
    (fun r =>
      processGroup r.1 (today_message r.1.length) cfg.slack.enabled cfg.slack.webhook_url
        cfg.slack.channel_id
      ++ processGroup r.2
        ("Birthdays " ++ toString cfg.warning.number_of_days_warning ++ " days from now: ")
        cfg.warning.enabled cfg.warning.webhook_url cfg.warning.channel_id)

/-- Modelled from the spec (section 4.2 joining rule), for comparison with
`slack_format`: each tag is wrapped individually as a mention token and
the wrapped tokens are joined with a comma and a space. -/
def spec_mention_list (tags : List String) : String :=
  rustJoin ", " (tags.map (fun t => "<@" ++ t ++ ">"))

/-! Helper lemmas shared by the claim theorems. -/

theorem str_assoc (a b c : String) : a ++ b ++ c = a ++ (b ++ c) := by
  apply String.ext
  simp [String.data_append]

theorem match_dates_loop_ok (ck wk : String) (rows : List BirthdayRow)
    (accC accU : List BirthdayRow) :
    match_dates_loop ck wk (rows.map Except.ok) accC accU =
      some (accC ++ rows.filter (fun r => r.date == ck),
        accU ++ rows.filter (fun r => !(r.date == ck) && (r.date == wk))) := by
  induction rows generalizing accC accU with
  | nil => simp [match_dates_loop]
  | cons r rest ih =>
    cases h1 : (r.date == ck) with
    | true => simp [match_dates_loop, h1, ih, List.filter_cons]
    | false =>
      cases h2 : (r.date == wk) with
      | true => simp [match_dates_loop, h1, h2, ih, List.filter_cons]
      | false => simp [match_dates_loop, h1, h2, ih, List.filter_cons]

theorem match_dates_loop_error (ck wk : String) (pre : List BirthdayRow) (e : String)
    (post : List (Except String BirthdayRow)) (accC accU : List BirthdayRow) :
    match_dates_loop ck wk (pre.map Except.ok ++ Except.error e :: post) accC accU = none := by
  induction pre generalizing accC accU with
  | nil => simp [match_dates_loop]
  | cons r rest ih =>
    cases h1 : (r.date == ck) <;> cases h2 : (r.date == wk) <;>
      simp [match_dates_loop, h1, h2, ih]

theorem match_dates_ok (rows : List BirthdayRow) (warning_days : Nat) (cfg : CSV) (now : Date) :
    match_dates (rows.map Except.ok) warning_days cfg now =
      some (rows.filter (fun r => r.date == get_date_str now cfg),
        rows.filter (fun r => !(r.date == get_date_str now cfg) &&
          (r.date == get_date_str (addDays now warning_days) cfg))) := by
  simp only [match_dates]
  rw [match_dates_loop_ok]
  simp
/-- C1: the Date Matcher never places the same record in both output
sequences; when the today key and the warning key coincide (the offset-0
boundary case) a record whose date equals both keys lands in the today
group only, and the upcoming group is empty. -/
theorem c1_partition_exclusive (rows : List BirthdayRow) (warning_days : Nat) (cfg : CSV)
    (now : Date) (cur upc : List BirthdayRow)
    (h : match_dates (rows.map Except.ok) warning_days cfg now = some (cur, upc)) :
    (∀ r, r ∈ upc → r ∉ cur) ∧
    (get_date_str now cfg = get_date_str (addDays now warning_days) cfg →
      upc = [] ∧ ∀ r, r ∈ rows → r.date = get_date_str now cfg → r ∈ cur) := by
  rw [match_dates_ok] at h
  simp only [Option.some.injEq, Prod.mk.injEq] at h
  obtain ⟨hc, hu⟩ := h
  subst hc
  subst hu
  constructor
  · intro r hru hrc
    rw [List.mem_filter] at hru hrc
    rw [hrc.2] at hru
    simp at hru
  · intro hkw
    constructor
    · rw [← hkw]
      apply List.filter_eq_nil_iff.mpr
      intro r _
      cases hh : (r.date == get_date_str now cfg) <;> simp [hh]
    · intro r hr hdate
      exact List.mem_filter.mpr ⟨hr, by simp [hdate]⟩

/-- C1 witness at a concrete offset-0 run. -/
theorem c1_partition_exclusive_witness :
    (⟨"03-07", "alice"⟩ : BirthdayRow) ∈ [(⟨"03-07", "alice"⟩ : BirthdayRow)] :=
  ((c1_partition_exclusive [⟨"03-07", "alice"⟩] 0 ⟨'-', DateFormat.MonthDay⟩ ⟨2024, 3, 7⟩
      [⟨"03-07", "alice"⟩] [] (by decide)).2 (by decide)).2
    ⟨"03-07", "alice"⟩ (by decide) (by decide)

/-- C6: a row that fails to deserialize aborts the run fatally mid-scan,
regardless of the rows already processed before it or still after it:
match_dates yields no partition and main produces no effects at all, so
earlier rows are never matched, formatted, or sent. -/
theorem c6_abort_on_malformed (pre : List BirthdayRow) (e : String)
    (post : List (Except String BirthdayRow)) (cfg : Config) (now : Date) :
    match_dates (pre.map Except.ok ++ Except.error e :: post)
      cfg.warning.number_of_days_warning cfg.csv now = none ∧
    main_run cfg (pre.map Except.ok ++ Except.error e :: post) now = none := by
  have h : match_dates (pre.map Except.ok ++ Except.error e :: post)
      cfg.warning.number_of_days_warning cfg.csv now = none := by
    simp only [match_dates]
    exact match_dates_loop_error _ _ pre e post [] []
  exact ⟨h, by simp [main_run, h]⟩

/-- C7: the warning key is rendered from today plus the configured number
of offset days, the day addition rolls over month and year boundaries
(December 31 plus one day is January 1 of the next year, for every year),
and the rendered key never depends on the year component. -/
theorem c7_rollover (y : Nat) (cfg : CSV) (warning_days : Nat) (now : Date)
    (iter : List (Except String BirthdayRow)) :
    addDays ⟨y, 12, 31⟩ 1 = ⟨y + 1, 1, 1⟩ ∧
    get_date_str (addDays ⟨y, 12, 31⟩ 1) cfg = get_date_str ⟨y + 1, 1, 1⟩ cfg ∧
    (∀ y1 y2 m d, get_date_str ⟨y1, m, d⟩ cfg = get_date_str ⟨y2, m, d⟩ cfg) ∧
    match_dates iter warning_days cfg now =
      match_dates_loop (get_date_str now cfg) (get_date_str (addDays now warning_days) cfg)
        iter [] [] :=
  ⟨rfl, rfl, fun _ _ _ _ => rfl, rfl⟩

/-- C8: both outputs of the Date Matcher are sublists of the input, hence
preserve the relative input order of the matching records; they are
exactly the order-preserving filters by the today key and by the warning
key (for records not matching the today key). -/
theorem c8_order_preserved (rows : List BirthdayRow) (warning_days : Nat) (cfg : CSV)
    (now : Date) (cur upc : List BirthdayRow)
    (h : match_dates (rows.map Except.ok) warning_days cfg now = some (cur, upc)) :
    List.Sublist cur rows ∧ List.Sublist upc rows ∧
    cur = rows.filter (fun r => r.date == get_date_str now cfg) ∧
    upc = rows.filter (fun r => !(r.date == get_date_str now cfg) &&
      (r.date == get_date_str (addDays now warning_days) cfg)) := by
  rw [match_dates_ok] at h
  simp only [Option.some.injEq, Prod.mk.injEq] at h
  obtain ⟨hc, hu⟩ := h
  subst hc
  subst hu
  exact ⟨List.filter_sublist rows, List.filter_sublist rows, rfl, rfl⟩

/-- C8 witness at a concrete three-row run with interleaved matches. -/
theorem c8_order_preserved_witness :
    ([⟨"03-07", "a"⟩, ⟨"03-07", "c"⟩] : List BirthdayRow) =
      ([⟨"03-07", "a"⟩, ⟨"03-10", "b"⟩, ⟨"03-07", "c"⟩] : List BirthdayRow).filter
        (fun r => r.date == get_date_str ⟨2024, 3, 7⟩ ⟨'-', DateFormat.MonthDay⟩) :=
  (c8_order_preserved [⟨"03-07", "a"⟩, ⟨"03-10", "b"⟩, ⟨"03-07", "c"⟩] 3
    ⟨'-', DateFormat.MonthDay⟩ ⟨2024, 3, 7⟩ [⟨"03-07", "a"⟩, ⟨"03-07", "c"⟩]
    [⟨"03-10", "b"⟩] (by decide)).2.2.1
/-- C2: get_date_str renders the zero-padded month and day joined by the
separator, month first under MonthDay and day first under DayMonth; the
pad is exactly 2 characters wide for every calendar month and day value,
and the concrete instant month 3 day 7 with separator - renders as 03-07
under MonthDay and 07-03 under DayMonth. -/
theorem c2_render_date_key (d : Date) (sep : Char) :
    get_date_str d ⟨sep, DateFormat.MonthDay⟩ =
      fmtPad2 d.month ++ String.singleton sep ++ fmtPad2 d.day ∧
    get_date_str d ⟨sep, DateFormat.DayMonth⟩ =
      fmtPad2 d.day ++ String.singleton sep ++ fmtPad2 d.month ∧
    (∀ n, n < 32 → (fmtPad2 n).length = 2) ∧
    get_date_str ⟨2024, 3, 7⟩ ⟨'-', DateFormat.MonthDay⟩ = "03-07" ∧
    get_date_str ⟨2024, 3, 7⟩ ⟨'-', DateFormat.DayMonth⟩ = "07-03" :=
  ⟨rfl, rfl, by decide, by decide, by decide⟩

/-- C2 witness: the padded width at a concrete day value. -/
theorem c2_render_date_key_witness : (fmtPad2 7).length = 2 :=
  (c2_render_date_key ⟨2024, 3, 7⟩ '-').2.2.1 7 (by decide)

theorem mention_join (x : String) (xs : List String) :
    "<@" ++ rustJoin ">, <@" (x :: xs) ++ ">" =
      rustJoin ", " ((x :: xs).map (fun t => "<@" ++ t ++ ">")) := by
  induction xs generalizing x with
  | nil => rfl
  | cons y ys ih =>
    show "<@" ++ (x ++ ">, <@" ++ rustJoin ">, <@" (y :: ys)) ++ ">" =
      "<@" ++ x ++ ">" ++ ", " ++ rustJoin ", " ((y :: ys).map (fun t => "<@" ++ t ++ ">"))
    rw [← ih y]
    rw [show (">, <@" : String) = ">" ++ ", " ++ "<@" from rfl]
    simp only [str_assoc]

/-- C3: for every non-empty group the formatted message is the message
followed by the spec's mention list, each tag wrapped as a mention token
and the tokens joined by a comma and a space; a single record emits no
separator, and the two concrete examples from the spec hold. -/
theorem c3_message_join (tags : List BirthdayRow) (birthday_message : String) :
    (tags ≠ [] → slack_format tags birthday_message =
      birthday_message ++ spec_mention_list (tags.map (fun b => b.tag))) ∧
    slack_format [⟨"", "alice"⟩] birthday_message = birthday_message ++ "<@alice>" ∧
    slack_format [⟨"", "alice"⟩, ⟨"", "bob"⟩] birthday_message =
      birthday_message ++ "<@alice>, <@bob>" := by
  refine ⟨fun hne => ?_, ?_, ?_⟩
  · cases tags with
    | nil => exact absurd rfl hne
    | cons t ts =>
      have hm := mention_join t.tag (ts.map (fun b => b.tag))
      simp only [str_assoc] at hm
      simp only [slack_format, spec_mention_list, List.map_cons, str_assoc]
      rw [hm]
      simp only [List.map_cons]
  · simp only [slack_format, List.map_cons, List.map_nil, rustJoin, str_assoc]
    rfl
  · simp only [slack_format, List.map_cons, List.map_nil, rustJoin, str_assoc]
    rfl

/-- C3 witness at a concrete two-record group. -/
theorem c3_message_join_witness :
    slack_format [⟨"", "alice"⟩, ⟨"", "bob"⟩] "P: " =
      "P: " ++ spec_mention_list (([⟨"", "alice"⟩, ⟨"", "bob"⟩] : List BirthdayRow).map
        (fun b => b.tag)) :=
  (c3_message_join [⟨"", "alice"⟩, ⟨"", "bob"⟩] "P: ").1 (by decide)

/-- C4: the prefix for the today group is chosen from the match count
alone: one match greets with Happy birthday, two with the both form, and
three or more with the all form. -/
theorem c4_today_greeting (group : List BirthdayRow) :
    (group.length = 1 → today_message group.length = "Happy birthday") ∧
    (group.length = 2 → today_message group.length = "Happy birthday to you both!") ∧
    (3 ≤ group.length → today_message group.length = "Happy birthday to you all!") := by
  refine ⟨fun h => by simp [today_message, h], fun h => by simp [today_message, h], fun h => ?_⟩
  have h1 : (group.length == 1) = false := by simp; omega
  have h2 : (group.length == 2) = false := by simp; omega
  simp [today_message, h1, h2]

/-- C4 witness at a concrete group of three records. -/
theorem c4_today_greeting_witness :
    today_message ([⟨"", "a"⟩, ⟨"", "b"⟩, ⟨"", "c"⟩] : List BirthdayRow).length =
      "Happy birthday to you all!" :=
  (c4_today_greeting [⟨"", "a"⟩, ⟨"", "b"⟩, ⟨"", "c"⟩]).2.2 (by decide)
/-- C5: for each group, the console line is always emitted when the group
is non-empty whatever the notification settings; an HTTP send appears in
the trace only when the enabled flag is set and both the webhook URL and
the channel id are present (and then it carries the printed message); with
the channel id absent the console line is still the whole trace; and an
empty group produces no effects at all. -/
theorem c5_side_effects (group : List BirthdayRow) (birthday_message : String) (enabled : Bool)
    (webhook_url channel_id : Option String) :
    (group ≠ [] →
      Effect.println (slack_format group birthday_message) ∈
        processGroup group birthday_message enabled webhook_url channel_id) ∧
    (∀ m url ch,
      Effect.httpSend m url ch ∈ processGroup group birthday_message enabled webhook_url channel_id →
        enabled = true ∧ webhook_url = some url ∧ channel_id = some ch ∧
          m = slack_format group birthday_message ∧ group ≠ []) ∧
    (channel_id = none → group ≠ [] →
      processGroup group birthday_message enabled webhook_url channel_id =
        [Effect.println (slack_format group birthday_message)]) ∧
    (group = [] → processGroup group birthday_message enabled webhook_url channel_id = []) := by
  refine ⟨fun hne => ?_, fun m url ch hmem => ?_, fun hch hne => ?_, fun hg => ?_⟩
  · cases group with
    | nil => exact absurd rfl hne
    | cons a as => simp [processGroup]
  · cases group with
    | nil => simp [processGroup] at hmem
    | cons a as =>
      cases enabled with
      | false => simp [processGroup] at hmem
      | true =>
        cases webhook_url with
        | none => simp [processGroup] at hmem
        | some u =>
          cases channel_id with
          | none => simp [processGroup] at hmem
          | some c =>
            simp [processGroup] at hmem
            obtain ⟨hm, hu, hc⟩ := hmem
            exact ⟨rfl, by rw [hu], by rw [hc], hm, by simp⟩
  · cases group with
    | nil => exact absurd rfl hne
    | cons a as =>
      subst hch
      cases enabled <;> cases webhook_url <;> simp [processGroup]
  · subst hg
    simp [processGroup]

/-- C5 witness: enabled with the channel id missing still prints and does
not send. -/
theorem c5_side_effects_witness :
    processGroup [⟨"03-07", "alice"⟩] "Happy birthday" true (some "https://hooks.example") none =
      [Effect.println (slack_format [⟨"03-07", "alice"⟩] "Happy birthday")] :=
  (c5_side_effects [⟨"03-07", "alice"⟩] "Happy birthday" true (some "https://hooks.example")
    none).2.2.1 rfl (by decide)

/-- C9: when the upcoming group is non-empty, the printed upcoming message
is exactly the prefix built from the configured warning offset followed by
the mention list, with the prefix term independent of the group's size. -/
theorem c9_upcoming_message (cfg : Config) (iter : List (Except String BirthdayRow)) (now : Date)
    (cur upc : List BirthdayRow)
    (h : match_dates iter cfg.warning.number_of_days_warning cfg.csv now = some (cur, upc))
    (hne : upc ≠ []) :
    Effect.println ("Birthdays " ++ toString cfg.warning.number_of_days_warning ++
        " days from now: " ++
        ("<@" ++ rustJoin ">, <@" (upc.map (fun b => b.tag)) ++ ">")) ∈
      (main_run cfg iter now).getD [] := by
  cases upc with
  | nil => exact absurd rfl hne
  | cons u us =>
    simp only [main_run]
    rw [h]
    simp only [Option.map_some', Option.getD_some]
    apply List.mem_append_right
    have hmsg : slack_format (u :: us)
        ("Birthdays " ++ toString cfg.warning.number_of_days_warning ++ " days from now: ") =
        "Birthdays " ++ toString cfg.warning.number_of_days_warning ++ " days from now: " ++
          ("<@" ++ rustJoin ">, <@" ((u :: us).map (fun b => b.tag)) ++ ">") := by
      simp only [slack_format, str_assoc]
    rw [← hmsg]
    simp [processGroup]

/-- C9 witness at a concrete run with one upcoming match and offset 3. -/
theorem c9_upcoming_message_witness :
    Effect.println ("Birthdays " ++ toString (3 : Nat) ++ " days from now: " ++
        ("<@" ++ rustJoin ">, <@" (([⟨"03-10", "u2"⟩] : List BirthdayRow).map (fun b => b.tag))
          ++ ">")) ∈
      (main_run ⟨⟨true, none, none, 3⟩, ⟨'-', DateFormat.MonthDay⟩, ⟨false, none, none⟩⟩
        [Except.ok ⟨"03-10", "u2"⟩] ⟨2024, 3, 7⟩).getD [] :=
  c9_upcoming_message _ _ _ [] [⟨"03-10", "u2"⟩] (by decide) (by decide)

/-- C10: on the empty group, outside the spec's non-empty precondition,
the formatter still returns the message followed by the malformed mention
token, and the per-group block of main never reaches the formatter because
its emptiness guard yields no effects. -/
theorem c10_empty_format (birthday_message : String) (enabled : Bool)
    (webhook_url channel_id : Option String) :
    slack_format [] birthday_message = birthday_message ++ "<@>" ∧
    processGroup [] birthday_message enabled webhook_url channel_id = [] := by
  constructor
  · simp only [slack_format, List.map_nil, rustJoin, String.append_empty, str_assoc]
    rfl
  · simp [processGroup]
